import Mathlib

/-!
Shallow embedding of `generate_videos.py` (augment-command.yazi repository).

The Python program builds VHS tape scripts (`VHSTape`, `Script`) for recording
demo videos, filters them by a search term, and (per the specification) also
converts recorded terminal sessions to videos in a batch pipeline.

Modelling conventions:
- Python `set` objects are modelled as duplicate-free insertion-ordered lists
  (`addToSet` / `updateSet`).  All claims about sets are order-insensitive
  (membership / no-duplicates), so the insertion order is immaterial.
- Python `str.format` is modelled by `pyFormat`, covering literal text, the
  escapes `{{` and `}}`, automatic fields `{}` and manual numeric fields
  `{0}`, `{1}`, ...; any other field (e.g. one with a format spec) and any
  error case (bad index, mixing automatic and manual numbering, stray braces)
  yields `none`, mirroring Python raising an exception.
- Lowercasing is ASCII lowercasing (the program only uses ASCII names).
- The mutation of `self.required_programs` inside `VHSTape.__str__` is made
  explicit: rendering returns the text together with the post-call object
  state (`renderVHSTape : String → VHSTape → Option String × VHSTape`).
- `WORKING_DIRECTORY` (`Path(__file__).parent` in the source) depends on the
  environment, so it is passed as an explicit argument `wd` everywhere.
-/

set_option maxRecDepth 20000

/-- The character `{`, written via an escape for hygiene. -/
def lbrace : Char := '\x7b'

/-- The character `}`, written via an escape for hygiene. -/
def rbrace : Char := '\x7d'

/-- Python whitespace characters recognised by `str.strip()` / `str.split()`. -/
def isPyWhitespace (c : Char) : Bool :=
  c = ' ' || c = '\t' || c = '\n' || c = '\x0d' || c = '\x0b' || c = '\x0c'

/-- Strip characters satisfying `p` from both ends of a character list. -/
def stripChars (p : Char → Bool) (l : List Char) : List Char :=
  ((l.dropWhile p).reverse.dropWhile p).reverse

/-- Python `str.strip()` (no argument): strip whitespace from both ends. -/
def pyStrip (s : String) : String :=
  String.mk (stripChars isPyWhitespace s.data)

/-- Python `item.strip("/")`: strip `/` from both ends (leading AND trailing). -/
def pyStripSlashes (s : String) : String :=
  String.mk (stripChars (fun c => c = '/') s.data)

/-- Python `str.lower()` (ASCII fragment, which is all the program uses),
implemented charwise so that it evaluates by kernel reduction. -/
def pyLower (s : String) : String :=
  String.mk (s.data.map Char.toLower)

/-- Split a character list at every separator satisfying `p` (the separator
semantics of `str.split(sep)`), keeping empty pieces. -/
def splitCharsAux (p : Char → Bool) : List Char → List Char → List (List Char)
  | [], cur => [cur.reverse]
  | c :: rest, cur =>
      if p c then cur.reverse :: splitCharsAux p rest []
      else splitCharsAux p rest (c :: cur)

/-- Split a string at every character satisfying `p`, keeping empty pieces. -/
def splitStr (p : Char → Bool) (s : String) : List String :=
  (splitCharsAux p s.data []).map String.mk

/-- Python `str.split()` with no argument: split on whitespace runs,
dropping empty pieces. -/
def pySplitWhitespace (s : String) : List String :=
  (splitStr isPyWhitespace s).filter (fun piece => piece ≠ "")

/-- Whether `pre` is a prefix of `l` (plain recursive definition). -/
def beginsWith : List Char → List Char → Bool
  | [], _ => true
  | _ :: _, [] => false
  | c :: cs, d :: ds => c = d && beginsWith cs ds

/-- Whether `needle` occurs as a contiguous substring of `hay`
(Python `needle in hay` on strings). -/
def charsContainSub (needle : List Char) : List Char → Bool
  | [] => beginsWith needle []
  | c :: rest => beginsWith needle (c :: rest) || charsContainSub needle rest

/-- Python substring test `needle in hay`. -/
def strContainsSub (hay needle : String) : Bool :=
  charsContainSub needle.data hay.data

/-- Whether `post` is a suffix of `s`. -/
def strEndsWith (s post : String) : Bool :=
  beginsWith post.data.reverse s.data.reverse

/-- An insertion-ordered model of Python `set.add`: append the element if it
is not already present. -/
def addToSet (s : List String) (x : String) : List String :=
  if x ∈ s then s else s ++ [x]

/-- An insertion-ordered model of Python `set.update`: add all elements. -/
def updateSet (s : List String) (xs : List String) : List String :=
  xs.foldl addToSet s

/-- `pathlib` final path component: split on `/`, drop empty and `.`
components, take the last component (empty when there is none). -/
def pyPathName (item : String) : String :=
  (((splitStr (fun c => c = '/') item).filter
    (fun comp => comp ≠ "" && comp ≠ ".")).getLastD "")

/-- The index of the last `.` in a character list, if any. -/
def lastDotIndex (l : List Char) : Option Nat :=
  ((l.enum.filter (fun p => p.2 = '.')).getLast?).map (fun p => p.1)

/-- `pathlib.PurePath.suffix`: the final component's extension, present only
when the last dot is neither the first nor the last character of the name. -/
def pathSuffix (item : String) : String :=
  let name := pyPathName item
  match lastDotIndex name.data with
  | some i =>
      if 0 < i ∧ i < name.data.length - 1 then String.mk (name.data.drop i)
      else ""
  | none => ""

/-- `pathlib.PurePath.stem`: the final component without its extension. -/
def pathStem (item : String) : String :=
  let name := pyPathName item
  match lastDotIndex name.data with
  | some i =>
      if 0 < i ∧ i < name.data.length - 1 then String.mk (name.data.take i)
      else name
  | none => name

/-! ## A model of Python `str.format` with positional arguments -/

/-- Numbering mode of a format scan: nothing seen yet, automatic numbering
(with the next index), or manual numbering.  Python forbids mixing the two. -/
inductive FmtMode
  | start
  | auto (n : Nat)
  | manual
deriving DecidableEq

/-- Interpret a digit run as a natural number. -/
def digitsToNat (ds : List Char) : Nat :=
  ds.foldl (fun n c => 10 * n + (c.toNat - 48)) 0

/-- Scanner state of the `str.format` model: in literal text, just consumed
`{`, just consumed `}` (an escape must follow), or inside a numeric field
with the digits read so far. -/
inductive FmtSt
  | normal
  | sawL
  | sawR
  | inField (ds : List Char)
deriving DecidableEq

/-- Core scanner of the `str.format` model, structurally recursive on the
character list.  Returns `none` on any input on which Python `str.format`
raises (stray braces, bad index, mixing automatic and manual numbering,
non-numeric field, unterminated field). -/
def pyFormatAux (args : List String) (mode : FmtMode) (st : FmtSt) :
    List Char → Option (List Char)
  | [] => match st with
      | .normal => some []
      | _ => none
  | c :: rest =>
      match st with
      | .normal =>
          if c = lbrace then pyFormatAux args mode .sawL rest
          else if c = rbrace then pyFormatAux args mode .sawR rest
          else (pyFormatAux args mode .normal rest).map (fun out => c :: out)
      | .sawR =>
          if c = rbrace then
            (pyFormatAux args mode .normal rest).map (fun out => rbrace :: out)
          else none
      | .sawL =>
          if c = lbrace then
            (pyFormatAux args mode .normal rest).map (fun out => lbrace :: out)
          else if c = rbrace then
            match mode with
            | .manual => none
            | .start =>
                (args.get? 0).bind fun v =>
                  (pyFormatAux args (.auto 1) .normal rest).map
                    (fun out => v.data ++ out)
            | .auto n =>
                (args.get? n).bind fun v =>
                  (pyFormatAux args (.auto (n + 1)) .normal rest).map
                    (fun out => v.data ++ out)
          else if c.isDigit then pyFormatAux args mode (.inField [c]) rest
          else none
      | .inField ds =>
          if c.isDigit then pyFormatAux args mode (.inField (ds ++ [c])) rest
          else if c = rbrace then
            match mode with
            | .auto _ => none
            | _ =>
                (args.get? (digitsToNat ds)).bind fun v =>
                  (pyFormatAux args .manual .normal rest).map
                    (fun out => v.data ++ out)
          else none

/-- Python `text.format(*args)` restricted to positional fields. -/
def pyFormat (text : String) (args : List String) : Option String :=
  (pyFormatAux args .start .normal text.data).map String.mk

/-! ## Data model: `Script` and `VHSTape` -/

/-- `Script`: a reusable fragment with setup commands, clean-up commands and
required programs (source: class `Script`). -/
structure Script where
  setup : String := ""
  clean_up : String := ""
  required_programs : List String := []
deriving DecidableEq

/-- `VHSTape`: one complete recorded-demo definition (source: class
`VHSTape`).  `required_programs` models the Python `set` as a duplicate-free
insertion-ordered list. -/
structure VHSTape where
  name : String
  file_name : String
  files_and_directories : List String
  setup : List String
  clean_up : List String
  required_programs : List String
  shell_body : List String
  yazi_body : List String
  skip_quitting_yazi : Bool
  editor : Option String
deriving DecidableEq

/-- Python `name.replace(" ", "_")`: with a single-character pattern this is
the charwise map, implemented so it evaluates by kernel reduction. -/
def spacesToUnderscores (s : String) : String :=
  String.mk (s.data.map (fun c => if c = ' ' then '_' else c))

/-- Python truthiness of the optional editor string (`if self.editor:`). -/
def editorTruthy : Option String → Bool
  | none => false
  | some e => e ≠ ""

/-- `VHSTape.__init__`: build a tape from a scenario definition.  The
`None` defaults of the Python signature are modelled by passing `[]` /
`none` explicitly. -/
def VHSTape.init (name : String) (files_and_directories : List String)
    (scripts : List Script) (shell_body : List String)
    (yazi_body : List String) (skip_quitting_yazi : Bool)
    (editor : Option String) : VHSTape :=
  let fromScripts :=
    scripts.foldl (fun acc s => updateSet acc s.required_programs) []
  let withBase := updateSet fromScripts ["yazi", "clear"]
  let required :=
    if editorTruthy editor then
      addToSet withBase (editor.getD "")
    else withBase
  { name := name
    file_name := spacesToUnderscores (pyLower name)
    files_and_directories := files_and_directories
    setup := scripts.map (fun s => s.setup)
    clean_up := scripts.map (fun s => s.clean_up)
    required_programs := required
    shell_body := shell_body
    yazi_body := yazi_body
    skip_quitting_yazi := skip_quitting_yazi
    editor := editor }

/-! ## Constants of the script (verbatim from the source) -/

/-- `ARCHIVE_FILE_EXTENSIONS` (a Python set, modelled as a list). -/
def ARCHIVE_FILE_EXTENSIONS : List String := [".zip", ".7z"]

/-- `CONFIG`: the global VHS settings block. -/
def CONFIG : String :=
  String.intercalate "\n"
    [ "Set FontSize 20"
    , "Set FontFamily \"Maple Mono NF CN\""
    , "Set Theme \"BlulocoDark\""
    , "Set Padding 20"
    , "Set Margin 0" ]

/-- `NORMAL_TYPING_SPEED`. -/
def NORMAL_TYPING_SPEED : String := "Set TypingSpeed 150ms"

/-- `FAST_TYPING_SPEED`. -/
def FAST_TYPING_SPEED : String := "Set TypingSpeed 0.1ms"

/-- `SLEEP_TIME`. -/
def SLEEP_TIME : String := "Sleep 1s"

/-- `SHORT_SLEEP_TIME`. -/
def SHORT_SLEEP_TIME : String := "Sleep 500ms"

/-- `CHANGE_TO_WORKING_DIRECTORY`, parameterised by the environment-dependent
`WORKING_DIRECTORY` (`Path(__file__).parent`). -/
def CHANGE_TO_WORKING_DIRECTORY (wd : String) : String :=
  "Type \"cd " ++ wd ++ "\" Enter"

/-- `CLEAR_SCREEN`. -/
def CLEAR_SCREEN : String := "Type \x27clear\x27 Enter"

/-! ## The renderer `VHSTape.__str__` -/

/-- The set of files and directories to clean up, built at the start of
`VHSTape.__str__`: each registered item with slashes stripped from both ends,
plus, for archive items, the extension-stripped final path component. -/
def cleanUpStep (acc : List String) (item : String) : List String :=
  let acc1 := addToSet acc (pyStripSlashes item)
  if pathSuffix item ∈ ARCHIVE_FILE_EXTENSIONS then
    addToSet acc1 (pathStem item)
  else acc1

/-- See `cleanUpStep`: the loop over `self.files_and_directories`. -/
def cleanUpSet (files : List String) : List String :=
  files.foldl cleanUpStep []

/-- The required-programs set after `__str__` ran: `"rm"` is added exactly
when the clean-up set is non-empty (the `self.required_programs.add("rm")`
mutation in the source). -/
def requiredAfter (t : VHSTape) : List String :=
  if (cleanUpSet t.files_and_directories).isEmpty then t.required_programs
  else addToSet t.required_programs "rm"

/-- The `rm -rf` clean-up line
(`"Type 'rm -rf {}' Enter".format(" ".join(...))`). -/
def rmLine (cset : List String) : String :=
  "Type \x27rm -rf " ++ String.intercalate " " cset ++ "\x27 Enter"

/-- The fixed leading lines of the tape (the `lines` list literal in
`__str__`), using the post-mutation required-programs set `required`. -/
def vhsMainLines (wd : String) (t : VHSTape) (required : List String) :
    List String :=
  [ "Output videos/" ++ t.file_name ++ ".mp4"
  , String.intercalate "\n"
      (required.map (fun program => "Require \"" ++ program ++ "\""))
  , CONFIG
  , "Hide"
  , FAST_TYPING_SPEED
  , CHANGE_TO_WORKING_DIRECTORY wd
  , String.intercalate "\n" t.setup
  , CLEAR_SCREEN
  , "Show"
  , NORMAL_TYPING_SPEED
  , String.intercalate "\n" t.shell_body
  , "Type \""
      ++ (if editorTruthy t.editor then
            "EDITOR=" ++ t.editor.getD "" ++ " yazi"
          else "yazi")
      ++ "\" Enter"
  , SLEEP_TIME
  , String.intercalate "\n" t.yazi_body ]

/-- The quit-yazi lines, appended unless `skip_quitting_yazi` is set. -/
def quitSection (t : VHSTape) : List String :=
  if t.skip_quitting_yazi then []
  else [SLEEP_TIME, "Type \"q\"", SHORT_SLEEP_TIME]

/-- The clean-up section, appended when there are clean-up commands or files
to clean up (`if self.clean_up or files_and_directories_to_clean_up:`).
Note a fragment with an *empty* clean-up text still makes `clean_up` a
non-empty list, hence still triggers this section. -/
def cleanUpSection (t : VHSTape) (cset : List String) : List String :=
  if t.clean_up.isEmpty && cset.isEmpty then []
  else
    [ "Hide"
    , FAST_TYPING_SPEED
    , String.intercalate "\n" t.clean_up
    , if cset.isEmpty then "" else rmLine cset ]

/-- All lines of the tape, in order. -/
def vhsLines (wd : String) (t : VHSTape) (required cset : List String) :
    List String :=
  vhsMainLines wd t required ++ quitSection t ++ cleanUpSection t cset

/-- The merged text of the tape before placeholder substitution
(`"\n".join(lines)`). -/
def mergedText (wd : String) (t : VHSTape) : String :=
  String.intercalate "\n"
    (vhsLines wd t (requiredAfter t) (cleanUpSet t.files_and_directories))

/-- `VHSTape.__str__`: returns the rendered text (`none` when the final
`str.format` call would raise) together with the post-call object state,
making the `required_programs.add("rm")` mutation explicit. -/
def renderVHSTape (wd : String) (t : VHSTape) : Option String × VHSTape :=
  ( (pyFormat (mergedText wd t) t.files_and_directories).map pyStrip
  , { t with required_programs := requiredAfter t } )

/-! ## `VHSTape.edit_plugin_config` -/

/-- A Python value passed to `edit_plugin_config` (`int | float | str | bool`;
floats are not used by any scenario and are omitted from the model). -/
inductive PyValue
  | pyBool (b : Bool)
  | pyInt (n : Int)
  | pyStr (s : String)
deriving DecidableEq

/-- Python `str()` of a `PyValue`. -/
def pyValueStr : PyValue → String
  | .pyBool true => "True"
  | .pyBool false => "False"
  | .pyInt n => toString n
  | .pyStr s => s

/-- The `sed` command line of `edit_plugin_config` for a given option and
replacement value: the raw template
`"sed -i 's/\\({} = \\)\\w\\+,/\\1{},/' main.lua"` wrapped in a
`Type`-backtick-`Enter` instruction, with the two automatic fields filled by
`str.format` (modelled by direct concatenation, which is exact because
`str.format` never scans its arguments). -/
def sedCommandLine (config_option value : String) : String :=
  "Type \x60sed -i \x27s/\\(" ++ config_option ++ " = \\)\\w\\+,/\\1"
    ++ value ++ ",/\x27 main.lua\x60 Enter"

/-- The command applying the configuration (`chezmoi apply`). -/
def applyConfigCommand : String := "Type \x60chezmoi apply\x60 Enter"

/-- `VHSTape.edit_plugin_config`: build the config-editing fragment, or fail
(`ValueError`) when a non-boolean value comes without an original value. -/
def edit_plugin_config (config_option : String) (value : PyValue)
    (original_value : Option PyValue) : Except String Script :=
  let stringified_value := pyValueStr value
  match value with
  | .pyBool b =>
      let sv := pyLower stringified_value
      let sov := pyLower (pyValueStr (.pyBool !b))
      .ok
        { setup :=
            String.intercalate "\n"
              [sedCommandLine config_option sv, applyConfigCommand]
          clean_up := sedCommandLine config_option sov
          required_programs := ["sed"] }
  | _ =>
      match original_value with
      | none => .error "Original value not given for non-boolean value"
      | some ov =>
          .ok
            { setup :=
                String.intercalate "\n"
                  [ sedCommandLine config_option stringified_value
                  , applyConfigCommand ]
              clean_up := sedCommandLine config_option (pyValueStr ov)
              required_programs := ["sed"] }

/-! ## The driver's search-term filter (from `main`) -/

/-- The tape-selection step of `main`: with no search term every tape is
kept; with a search term only tapes whose lowercased display name contains
every whitespace-separated lowercased term are kept. -/
def selectTapes (search_term : Option String) (tapes : List VHSTape) :
    List VHSTape :=
  match search_term with
  | none => tapes
  | some s =>
      tapes.filter
        (fun tape =>
          (pySplitWhitespace (pyLower s)).all
            (fun term => strContainsSub (pyLower tape.name) term))

/-! ## Batch Media Converter (spec-modelled) -/

/-- Modelled from the spec: the Batch Media Converter is not part of `src/`
(only `generate_videos.py` is); the spec describes it as discovering every
session file with the `.cast` extension under a root directory and, per
file, running stage 1 (session to intermediate `.gif`), stage 2
(intermediate to `videos/<base>.mp4`), then deleting the intermediate.
A conversion job for one discovered input file. -/
structure ConversionJob where
  input : String
  intermediate : String
  output : String
deriving DecidableEq

/-- Strip a suffix from a string when present (base name extraction). -/
def stripSuffixStr (s suf : String) : String :=
  if strEndsWith s suf then
    String.mk (s.data.take (s.data.length - suf.data.length))
  else s

/-- Modelled from the spec: discovery filters the root directory's files by
the `.cast` extension and derives the intermediate and output paths from the
input's base name. -/
def discoverJobs (files : List String) : List ConversionJob :=
  (files.filter (fun f => strEndsWith f ".cast")).map
    (fun f =>
      let base := stripSuffixStr f ".cast"
      { input := f
        intermediate := base ++ ".gif"
        output := "videos/" ++ base ++ ".mp4" })

/-- Modelled from the spec: one job's effect on the file set — stage 1
creates the intermediate, stage 2 creates the output, then the intermediate
is deleted. -/
def runJob (fs : List String) (job : ConversionJob) : List String :=
  (((fs ++ [job.intermediate]) ++ [job.output]).filter
    (fun f => f ≠ job.intermediate))

/-- Modelled from the spec: the batch runs every discovered job; the final
file set is order-insensitive (jobs are independent, distinct paths), so the
concurrent fan-out is modelled by a fold. -/
def runBatch (files : List String) : List String :=
  (discoverJobs files).foldl runJob files

/-! ## Set-model lemmas -/

theorem mem_addToSet (s : List String) (x y : String) :
    y ∈ addToSet s x ↔ y ∈ s ∨ y = x := by
  unfold addToSet
  by_cases h : x ∈ s
  · simp only [if_pos h]
    constructor
    · exact fun hy => Or.inl hy
    · rintro (hy | rfl) <;> assumption
  · simp [if_neg h]

theorem self_mem_addToSet (s : List String) (x : String) :
    x ∈ addToSet s x := by
  rw [mem_addToSet]
  exact Or.inr rfl

theorem addToSet_eq_of_mem (s : List String) (x : String) (h : x ∈ s) :
    addToSet s x = s := by
  unfold addToSet
  simp [h]

theorem mem_addToSet_of_mem (s : List String) (x y : String) (h : y ∈ s) :
    y ∈ addToSet s x := by
  rw [mem_addToSet]
  exact Or.inl h

theorem nodup_addToSet (s : List String) (x : String) (h : s.Nodup) :
    (addToSet s x).Nodup := by
  unfold addToSet
  by_cases hx : x ∈ s
  · simpa [hx] using h
  · rw [if_neg hx]
    refine List.Nodup.append h (List.nodup_singleton x) ?_
    intro a ha hb
    rw [List.mem_singleton] at hb
    subst hb
    exact hx ha

theorem mem_updateSet (s : List String) (xs : List String) (y : String) :
    y ∈ updateSet s xs ↔ y ∈ s ∨ y ∈ xs := by
  induction xs generalizing s with
  | nil => simp [updateSet]
  | cons x rest ih =>
      unfold updateSet at ih ⊢
      simp only [List.foldl_cons, List.mem_cons]
      rw [ih, mem_addToSet]
      tauto

theorem nodup_updateSet (s : List String) (xs : List String) (h : s.Nodup) :
    (updateSet s xs).Nodup := by
  induction xs generalizing s with
  | nil => simpa [updateSet]
  | cons x rest ih =>
      unfold updateSet at ih ⊢
      simp only [List.foldl_cons]
      exact ih _ (nodup_addToSet _ _ h)

/-! ## Clean-up set lemmas -/

theorem mem_foldl_cleanUpStep_of_mem (files : List String)
    (acc : List String) (x : String) (h : x ∈ acc) :
    x ∈ files.foldl cleanUpStep acc := by
  induction files generalizing acc with
  | nil => simpa
  | cons item rest ih =>
      simp only [List.foldl_cons]
      apply ih
      unfold cleanUpStep
      by_cases ha : pathSuffix item ∈ ARCHIVE_FILE_EXTENSIONS
      · simp only [ha, if_pos]
        exact mem_addToSet_of_mem _ _ _ (mem_addToSet_of_mem _ _ _ h)
      · simp only [ha]
        simpa using mem_addToSet_of_mem _ _ _ h

theorem stripped_mem_foldl_cleanUpStep (files : List String)
    (acc : List String) (item : String) (h : item ∈ files) :
    pyStripSlashes item ∈ files.foldl cleanUpStep acc := by
  induction files generalizing acc with
  | nil => cases h
  | cons f rest ih =>
      rcases List.mem_cons.mp h with rfl | hmem
      · simp only [List.foldl_cons]
        apply mem_foldl_cleanUpStep_of_mem
        unfold cleanUpStep
        by_cases ha : pathSuffix item ∈ ARCHIVE_FILE_EXTENSIONS
        · simp only [ha, if_pos]
          exact mem_addToSet_of_mem _ _ _ (self_mem_addToSet _ _)
        · simpa [ha] using self_mem_addToSet _ _
      · simp only [List.foldl_cons]
        exact ih _ hmem

theorem stem_mem_foldl_cleanUpStep (files : List String)
    (acc : List String) (item : String) (h : item ∈ files)
    (harch : pathSuffix item ∈ ARCHIVE_FILE_EXTENSIONS) :
    pathStem item ∈ files.foldl cleanUpStep acc := by
  induction files generalizing acc with
  | nil => cases h
  | cons f rest ih =>
      rcases List.mem_cons.mp h with rfl | hmem
      · simp only [List.foldl_cons]
        apply mem_foldl_cleanUpStep_of_mem
        unfold cleanUpStep
        simp only [harch, if_pos]
        exact self_mem_addToSet _ _
      · simp only [List.foldl_cons]
        exact ih _ hmem

theorem nodup_foldl_cleanUpStep (files : List String) (acc : List String)
    (h : acc.Nodup) : (files.foldl cleanUpStep acc).Nodup := by
  induction files generalizing acc with
  | nil => simpa
  | cons f rest ih =>
      simp only [List.foldl_cons]
      apply ih
      unfold cleanUpStep
      by_cases ha : pathSuffix f ∈ ARCHIVE_FILE_EXTENSIONS
      · simp only [ha, if_pos]
        exact nodup_addToSet _ _ (nodup_addToSet _ _ h)
      · simpa [ha] using nodup_addToSet _ _ h

theorem cleanUpSet_nodup (files : List String) : (cleanUpSet files).Nodup :=
  nodup_foldl_cleanUpStep files [] List.nodup_nil

theorem stripped_mem_cleanUpSet (files : List String) (item : String)
    (h : item ∈ files) : pyStripSlashes item ∈ cleanUpSet files :=
  stripped_mem_foldl_cleanUpStep files [] item h

theorem stem_mem_cleanUpSet (files : List String) (item : String)
    (h : item ∈ files)
    (harch : pathSuffix item ∈ ARCHIVE_FILE_EXTENSIONS) :
    pathStem item ∈ cleanUpSet files :=
  stem_mem_foldl_cleanUpStep files [] item h harch

/-! ## Format-scanner lemmas -/

/-- A character list with no brace characters (pure literal text for the
format scanner). -/
def braceFreeB (l : List Char) : Bool :=
  l.all (fun c => c ≠ lbrace && c ≠ rbrace)

theorem pyFormatAux_append (args : List String) (mode : FmtMode)
    (l rest : List Char) (h : braceFreeB l = true) :
    pyFormatAux args mode .normal (l ++ rest)
      = (pyFormatAux args mode .normal rest).map (fun out => l ++ out) := by
  induction l with
  | nil =>
      simp
  | cons c cs ih =>
      simp only [braceFreeB, List.all_cons, Bool.and_eq_true,
        decide_eq_true_eq] at h
      obtain ⟨⟨hcl, hcr⟩, hcs⟩ := h
      have ih' := ih (by simpa [braceFreeB] using hcs)
      simp only [List.cons_append, List.append_eq, pyFormatAux, if_neg hcl,
        if_neg hcr, ih', Option.map_map]
      rfl

theorem pyFormatAux_literal (args : List String) (mode : FmtMode)
    (l : List Char) (h : braceFreeB l = true) :
    pyFormatAux args mode .normal l = some l := by
  have h2 := pyFormatAux_append args mode l [] h
  simpa [pyFormatAux] using h2

theorem pyFormatAux_digitField (args : List String) (mode : FmtMode)
    (d : Char) (rest : List Char) (hd : d.isDigit = true)
    (hmode : ∀ n, mode ≠ FmtMode.auto n) :
    pyFormatAux args mode .normal (lbrace :: d :: rbrace :: rest)
      = (args.get? (digitsToNat [d])).bind fun v =>
          (pyFormatAux args .manual .normal rest).map
            (fun out => v.data ++ out) := by
  have hdl : d ≠ lbrace := by
    intro hcontra
    rw [hcontra] at hd
    exact absurd hd (by decide)
  have hdr : d ≠ rbrace := by
    intro hcontra
    rw [hcontra] at hd
    exact absurd hd (by decide)
  have hrb : rbrace.isDigit = false := by decide
  simp only [pyFormatAux, if_pos rfl, if_neg hdl, if_neg hdr, hd, if_true,
    hrb, Bool.false_eq_true, if_false]

/-! ## Renderer lemmas -/

theorem renderVHSTape_snd (wd : String) (t : VHSTape) :
    (renderVHSTape wd t).2 = { t with required_programs := requiredAfter t } :=
  rfl

theorem requiredAfter_render (wd : String) (t : VHSTape) :
    requiredAfter ((renderVHSTape wd t).2) = requiredAfter t := by
  show (if (cleanUpSet t.files_and_directories).isEmpty
      then requiredAfter t else addToSet (requiredAfter t) "rm")
    = requiredAfter t
  by_cases h : (cleanUpSet t.files_and_directories).isEmpty
  · rw [if_pos h]
  · rw [if_neg h]
    have hmem : "rm" ∈ requiredAfter t := by
      unfold requiredAfter
      rw [if_neg h]
      exact self_mem_addToSet _ _
    exact addToSet_eq_of_mem _ _ hmem

theorem mem_scriptsFold (scripts : List Script) (acc : List String)
    (p : String) :
    p ∈ scripts.foldl (fun a s => updateSet a s.required_programs) acc
      ↔ p ∈ acc ∨ ∃ s ∈ scripts, p ∈ s.required_programs := by
  induction scripts generalizing acc with
  | nil => simp
  | cons s rest ih =>
      simp only [List.foldl_cons]
      rw [ih, mem_updateSet]
      simp only [List.mem_cons]
      constructor
      · rintro ((hacc | hs) | ⟨x, hx, hpx⟩)
        · exact Or.inl hacc
        · exact Or.inr ⟨s, Or.inl rfl, hs⟩
        · exact Or.inr ⟨x, Or.inr hx, hpx⟩
      · rintro (hacc | ⟨x, (rfl | hx), hpx⟩)
        · exact Or.inl (Or.inl hacc)
        · exact Or.inl (Or.inr hpx)
        · exact Or.inr ⟨x, hx, hpx⟩

/-- Spec-side definition (for refinement comparison, following the spec's
words): the required-tool set is "the union of the required_programs of every
contributing fragment, plus the two baseline tools yazi and clear, plus the
editor name when an editor is specified" (an editor given as the empty
string counts as not specified, matching the spec's "optional external
editor-program name"). -/
def specRequiredToolSet (scripts : List Script) (editor : Option String)
    (p : String) : Prop :=
  (∃ s ∈ scripts, p ∈ s.required_programs) ∨ p = "yazi" ∨ p = "clear"
    ∨ (editorTruthy editor = true ∧ editor = some p)

theorem mem_init_required (name : String) (files : List String)
    (scripts : List Script) (shell_body yazi_body : List String)
    (skip : Bool) (editor : Option String) (p : String) :
    p ∈ (VHSTape.init name files scripts shell_body yazi_body skip
          editor).required_programs
      ↔ specRequiredToolSet scripts editor p := by
  show p ∈ (if editorTruthy editor then
      addToSet (updateSet (scripts.foldl
        (fun acc s => updateSet acc s.required_programs) []) ["yazi", "clear"])
        (editor.getD "")
    else updateSet (scripts.foldl
        (fun acc s => updateSet acc s.required_programs) []) ["yazi", "clear"])
    ↔ _
  unfold specRequiredToolSet
  by_cases he : editorTruthy editor = true
  · rw [if_pos he, mem_addToSet, mem_updateSet, mem_scriptsFold]
    cases editor with
    | none => simp [editorTruthy] at he
    | some e =>
        simp only [Option.getD_some, Option.some.injEq, he, true_and,
          List.not_mem_nil, false_or, or_false, List.mem_cons,
          List.mem_singleton]
        constructor
        · rintro ((hs | hyz) | rfl)
          · exact Or.inl hs
          · rcases hyz with rfl | rfl
            · exact Or.inr (Or.inl rfl)
            · exact Or.inr (Or.inr (Or.inl rfl))
          · exact Or.inr (Or.inr (Or.inr rfl))
        · rintro (hs | rfl | rfl | rfl)
          · exact Or.inl (Or.inl hs)
          · exact Or.inl (Or.inr (Or.inl rfl))
          · exact Or.inl (Or.inr (Or.inr rfl))
          · exact Or.inr rfl
  · rw [if_neg he, mem_updateSet, mem_scriptsFold]
    have he2 : editorTruthy editor = false := eq_false_of_ne_true he
    simp only [he2, Bool.false_eq_true, false_and, or_false,
      List.not_mem_nil, false_or, List.mem_cons, List.mem_singleton]

theorem mem_requiredAfter (t : VHSTape) (p : String) :
    p ∈ requiredAfter t
      ↔ p ∈ t.required_programs
        ∨ ((cleanUpSet t.files_and_directories).isEmpty = false ∧ p = "rm") := by
  unfold requiredAfter
  by_cases h : (cleanUpSet t.files_and_directories).isEmpty
  · simp [h]
  · rw [if_neg h, mem_addToSet]
    simp only [eq_false_of_ne_true h, true_and]

/-- C1: for every Document, rendering it to text twice with no mutation in
between yields identical text: the second `__str__` call on the post-call
object state returns the same string as the first call. -/
theorem claim1_render_twice_identical (wd : String) (t : VHSTape) :
    (renderVHSTape wd ((renderVHSTape wd t).2)).1 = (renderVHSTape wd t).1 := by
  have h2 : mergedText wd ((renderVHSTape wd t).2)
      = String.intercalate "\n"
          (vhsLines wd t (requiredAfter ((renderVHSTape wd t).2))
            (cleanUpSet t.files_and_directories)) := rfl
  have h1 : (renderVHSTape wd ((renderVHSTape wd t).2)).1
      = (pyFormat (mergedText wd ((renderVHSTape wd t).2))
          t.files_and_directories).map pyStrip := rfl
  rw [h1, h2, requiredAfter_render]
  rfl

/-- C2 counterexample: rendering does NOT leave every field of the tape
unchanged — for a tape with a registered file, `__str__` adds `"rm"` to
`required_programs`. -/
theorem claim2_counterexample :
    (renderVHSTape "/w" (VHSTape.init "Demo" ["a.txt"] [] [] ["Type \"j\""]
        false none)).2.required_programs
      ≠ (VHSTape.init "Demo" ["a.txt"] [] [] ["Type \"j\""]
          false none).required_programs := by
  decide

/-- C2 (amended): rendering leaves every field of the tape unchanged except
`required_programs`, which gains `"rm"` exactly when there are files or
directories to clean up. -/
theorem claim2_amended_render_mutates_only_required_programs
    (wd : String) (t : VHSTape) :
    (renderVHSTape wd t).2.name = t.name
    ∧ (renderVHSTape wd t).2.file_name = t.file_name
    ∧ (renderVHSTape wd t).2.files_and_directories = t.files_and_directories
    ∧ (renderVHSTape wd t).2.setup = t.setup
    ∧ (renderVHSTape wd t).2.clean_up = t.clean_up
    ∧ (renderVHSTape wd t).2.shell_body = t.shell_body
    ∧ (renderVHSTape wd t).2.yazi_body = t.yazi_body
    ∧ (renderVHSTape wd t).2.skip_quitting_yazi = t.skip_quitting_yazi
    ∧ (renderVHSTape wd t).2.editor = t.editor
    ∧ (renderVHSTape wd t).2.required_programs
        = (if (cleanUpSet t.files_and_directories).isEmpty
           then t.required_programs
           else addToSet t.required_programs "rm") :=
  ⟨rfl, rfl, rfl, rfl, rfl, rfl, rfl, rfl, rfl, rfl⟩

/-- C3 counterexample: after rendering, the required-tool set is NOT always
the union of the fragments' requirements plus the two baseline tools plus
the editor: `"rm"` appears although no fragment, baseline or editor
contributes it. -/
theorem claim3_counterexample :
    "rm" ∈ (renderVHSTape "/w" (VHSTape.init "Demo" ["a.txt"] [] []
        ["Type \"k\""] false none)).2.required_programs
    ∧ ¬ specRequiredToolSet [] none "rm" := by
  constructor
  · decide
  · unfold specRequiredToolSet
    simp [editorTruthy]

/-- C3 (amended): after construction, the required-tool set equals the union
of every contributing fragment's `required_programs` plus the baseline tools
`yazi` and `clear`, plus the editor name when an editor is specified; after
rendering it may additionally contain `"rm"`, exactly when there are files
or directories to clean up. -/
theorem claim3_amended_required_tool_set (name : String) (files : List String)
    (scripts : List Script) (shell_body yazi_body : List String) (skip : Bool)
    (editor : Option String) (wd : String) (t : VHSTape) (p : String) :
    (p ∈ (VHSTape.init name files scripts shell_body yazi_body skip
          editor).required_programs
      ↔ specRequiredToolSet scripts editor p)
    ∧ (p ∈ (renderVHSTape wd t).2.required_programs
      ↔ p ∈ t.required_programs
        ∨ ((cleanUpSet t.files_and_directories).isEmpty = false
            ∧ p = "rm")) :=
  ⟨mem_init_required name files scripts shell_body yazi_body skip editor p,
   mem_requiredAfter t p⟩

/-- C5: `edit_plugin_config` with boolean `True` yields a clean-up that sets
the option to `false` (and with `False`, to `true`); with a non-boolean
value and no original value it fails with the `ValueError`. -/
theorem claim5_edit_plugin_config_bool_and_error (config_option : String)
    (ov : Option PyValue) (n : Int) (s : String) :
    edit_plugin_config config_option (.pyBool true) ov
      = .ok { setup := String.intercalate "\n"
                [sedCommandLine config_option "true", applyConfigCommand]
              clean_up := sedCommandLine config_option "false"
              required_programs := ["sed"] }
    ∧ edit_plugin_config config_option (.pyBool false) ov
      = .ok { setup := String.intercalate "\n"
                [sedCommandLine config_option "false", applyConfigCommand]
              clean_up := sedCommandLine config_option "true"
              required_programs := ["sed"] }
    ∧ edit_plugin_config config_option (.pyInt n) none
      = .error "Original value not given for non-boolean value"
    ∧ edit_plugin_config config_option (.pyStr s) none
      = .error "Original value not given for non-boolean value" :=
  ⟨rfl, rfl, rfl, rfl⟩

/-- C8: the driver keeps exactly the tapes whose lowercased display name
contains every whitespace-separated term of the lowercased search string,
and with no search term it keeps every tape. -/
theorem claim8_search_filter (s : String) (tapes : List VHSTape)
    (t : VHSTape) :
    (t ∈ selectTapes (some s) tapes
      ↔ t ∈ tapes ∧ ∀ term ∈ pySplitWhitespace (pyLower s),
          strContainsSub (pyLower t.name) term = true)
    ∧ selectTapes none tapes = tapes := by
  refine ⟨?_, rfl⟩
  unfold selectTapes
  rw [List.mem_filter]
  simp [List.all_eq_true]

/-- C9: on a root containing exactly the session file `demo.cast`, the batch
converter produces exactly the output `videos/demo.mp4` and leaves no `.gif`
intermediate behind. -/
theorem claim9_batch_conversion :
    runBatch ["demo.cast"] = ["demo.cast", "videos/demo.mp4"]
    ∧ (runBatch ["demo.cast"]).filter (fun f => strEndsWith f ".gif") = []
    ∧ (runBatch ["demo.cast"]).filter (fun f => strEndsWith f ".mp4")
        = ["videos/demo.mp4"] :=
  ⟨rfl, rfl, rfl⟩

/-- C10: for a boolean value the supplied `original_value` is ignored — the
result is identical to the call without it, and the clean-up always sets the
option to the lowercased logical negation of the value. -/
theorem claim10_bool_ignores_original_value (config_option : String)
    (b : Bool) (ov : Option PyValue) :
    edit_plugin_config config_option (.pyBool b) ov
      = edit_plugin_config config_option (.pyBool b) none
    ∧ (edit_plugin_config config_option (.pyBool b) ov).map
        (fun sc => sc.clean_up)
      = .ok (sedCommandLine config_option (pyLower (pyValueStr (.pyBool !b)))) :=
  ⟨rfl, rfl⟩

/-- C4 counterexample: a Document with no registered files and a single
fragment whose clean-up text is empty still renders a trailing hidden
fast-typing clean-up block (`Hide` + the fast typing speed), because the
clean-up list `[""]` is a non-empty Python list and hence truthy. -/
theorem claim4_counterexample :
    (VHSTape.init "Demo" []
        [{ setup := "Type \"touch a\" Enter", clean_up := "",
           required_programs := [] }]
        [] ["Type \"j\""] false none).files_and_directories = []
    ∧ (VHSTape.init "Demo" []
        [{ setup := "Type \"touch a\" Enter", clean_up := "",
           required_programs := [] }]
        [] ["Type \"j\""] false none).clean_up = [""]
    ∧ ((renderVHSTape "/w" (VHSTape.init "Demo" []
        [{ setup := "Type \"touch a\" Enter", clean_up := "",
           required_programs := [] }]
        [] ["Type \"j\""] false none)).1).map
        (fun s => strEndsWith s ("Hide\n" ++ FAST_TYPING_SPEED))
      = some true := by
  refine ⟨rfl, rfl, ?_⟩
  decide

/-- C4 (amended): for a Document with no registered files/directories and an
empty merged clean-up list (no fragments at all), the rendered text has no
clean-up section: no trailing hidden fast-typing block, no recursive-delete
line, and no `"rm"` requirement is added.  (A Document whose fragments have
empty clean-up *texts* still gets the — empty — block, see the
counterexample.) -/
theorem claim4_amended_no_cleanup_section (wd : String) (t : VHSTape)
    (h1 : t.files_and_directories = []) (h2 : t.clean_up = []) :
    cleanUpSection t (cleanUpSet t.files_and_directories) = []
    ∧ requiredAfter t = t.required_programs
    ∧ (renderVHSTape wd t).1
        = (pyFormat (String.intercalate "\n"
            (vhsMainLines wd t t.required_programs ++ quitSection t))
          t.files_and_directories).map pyStrip := by
  have hc : cleanUpSet t.files_and_directories = [] := by
    rw [h1]
    rfl
  have hsec : cleanUpSection t (cleanUpSet t.files_and_directories) = [] := by
    unfold cleanUpSection
    rw [hc, h2]
    simp
  have hreq : requiredAfter t = t.required_programs := by
    unfold requiredAfter
    rw [hc]
    simp
  refine ⟨hsec, hreq, ?_⟩
  show (pyFormat (mergedText wd t) t.files_and_directories).map pyStrip = _
  unfold mergedText vhsLines
  rw [hsec, hreq, List.append_nil]

/-- A concrete tape with no files and no fragments (C4 witness input). -/
def demoTapeNoCleanup : VHSTape :=
  VHSTape.init "Demo" [] [] [] ["Type \"j\""] false none

/-- C4 witness: the amended theorem applied to a concrete fragment-free,
file-free tape. -/
theorem claim4_amended_witness :
    (demoTapeNoCleanup.files_and_directories = []
      ∧ demoTapeNoCleanup.clean_up = [])
    ∧ (cleanUpSection demoTapeNoCleanup
          (cleanUpSet demoTapeNoCleanup.files_and_directories) = []
      ∧ requiredAfter demoTapeNoCleanup = demoTapeNoCleanup.required_programs
      ∧ (renderVHSTape "/w" demoTapeNoCleanup).1
          = (pyFormat (String.intercalate "\n"
              (vhsMainLines "/w" demoTapeNoCleanup
                  demoTapeNoCleanup.required_programs
                ++ quitSection demoTapeNoCleanup))
            demoTapeNoCleanup.files_and_directories).map pyStrip) :=
  ⟨⟨rfl, rfl⟩,
   claim4_amended_no_cleanup_section "/w" demoTapeNoCleanup rfl rfl⟩

/-- C7 counterexample: for the registered archive path `"/demo.zip"` the
rendered text nowhere contains `"/demo.zip"` (the archive path with its —
nonexistent — trailing slash stripped), because `strip("/")` strips leading
slashes too; the delete line instead carries `demo.zip` and `demo`. -/
theorem claim7_counterexample :
    ((renderVHSTape "/w" (VHSTape.init "Demo" ["/demo.zip"] [] []
        ["Type \"j\""] false none)).1).map
      (fun s => strContainsSub s "/demo.zip") = some false
    ∧ ((renderVHSTape "/w" (VHSTape.init "Demo" ["/demo.zip"] [] []
        ["Type \"j\""] false none)).1).map
      (fun s => strContainsSub s "rm -rf demo.zip demo") = some true := by
  constructor
  · decide
  · decide

/-- C7 (amended): for every registered path with an archive extension, the
clean-up set joined into the recursive-delete line contains both the path
with leading and trailing slashes stripped and its extension-stripped final
component, the set has no duplicates, and the clean-up section ends with the
delete line over exactly that set. -/
theorem claim7_amended_cleanup_delete_line (t : VHSTape)
    (item : String) (h1 : item ∈ t.files_and_directories)
    (h2 : pathSuffix item ∈ ARCHIVE_FILE_EXTENSIONS) :
    pyStripSlashes item ∈ cleanUpSet t.files_and_directories
    ∧ pathStem item ∈ cleanUpSet t.files_and_directories
    ∧ (cleanUpSet t.files_and_directories).Nodup
    ∧ (cleanUpSection t (cleanUpSet t.files_and_directories)).getLast?
        = some (rmLine (cleanUpSet t.files_and_directories)) := by
  have hstr := stripped_mem_cleanUpSet t.files_and_directories item h1
  have hstem := stem_mem_cleanUpSet t.files_and_directories item h1 h2
  have hnodup := cleanUpSet_nodup t.files_and_directories
  refine ⟨hstr, hstem, hnodup, ?_⟩
  have hne : (cleanUpSet t.files_and_directories).isEmpty = false := by
    cases hcs : cleanUpSet t.files_and_directories with
    | nil =>
        rw [hcs] at hstr
        cases hstr
    | cons a l => rfl
  unfold cleanUpSection
  simp only [hne, Bool.and_false, Bool.false_eq_true, if_false]
  rfl

/-- A concrete tape registering the archive file `demo.zip` (C7 witness
input). -/
def demoTapeArchive : VHSTape :=
  VHSTape.init "Demo" ["demo.zip"] [] [] ["Type \"j\""] false none

/-- C7 witness: the amended theorem applied to a concrete tape with an
archive path. -/
theorem claim7_amended_witness :
    ("demo.zip" ∈ demoTapeArchive.files_and_directories
      ∧ pathSuffix "demo.zip" ∈ ARCHIVE_FILE_EXTENSIONS)
    ∧ (pyStripSlashes "demo.zip"
          ∈ cleanUpSet demoTapeArchive.files_and_directories
      ∧ pathStem "demo.zip" ∈ cleanUpSet demoTapeArchive.files_and_directories
      ∧ (cleanUpSet demoTapeArchive.files_and_directories).Nodup
      ∧ (cleanUpSection demoTapeArchive
            (cleanUpSet demoTapeArchive.files_and_directories)).getLast?
          = some (rmLine (cleanUpSet demoTapeArchive.files_and_directories))) :=
  ⟨⟨by decide, by decide⟩,
   claim7_amended_cleanup_delete_line demoTapeArchive "demo.zip"
     (by decide) (by decide)⟩

/-- One substitution step for the argument list `["a.txt", "b.txt"]`: literal
text followed by the field `{0}` consumes the literal and inserts `a.txt`. -/
theorem pyFormatAux_seg0 (mode : FmtMode) (hmode : ∀ n, mode ≠ FmtMode.auto n)
    (l rest : List Char) (hb : braceFreeB l = true) :
    pyFormatAux ["a.txt", "b.txt"] mode .normal
        (l ++ (lbrace :: '0' :: rbrace :: rest))
      = (pyFormatAux ["a.txt", "b.txt"] .manual .normal rest).map
          (fun out => l ++ ("a.txt".data ++ out)) := by
  rw [pyFormatAux_append _ _ _ _ hb,
    pyFormatAux_digitField _ _ _ _ (by decide) hmode]
  have hg : (["a.txt", "b.txt"] : List String).get? (digitsToNat ['0'])
      = some "a.txt" := rfl
  rw [hg, Option.some_bind, Option.map_map]
  rfl

/-- One substitution step for the argument list `["a.txt", "b.txt"]`: literal
text followed by the field `{1}` consumes the literal and inserts `b.txt`. -/
theorem pyFormatAux_seg1 (mode : FmtMode) (hmode : ∀ n, mode ≠ FmtMode.auto n)
    (l rest : List Char) (hb : braceFreeB l = true) :
    pyFormatAux ["a.txt", "b.txt"] mode .normal
        (l ++ (lbrace :: '1' :: rbrace :: rest))
      = (pyFormatAux ["a.txt", "b.txt"] .manual .normal rest).map
          (fun out => l ++ ("b.txt".data ++ out)) := by
  rw [pyFormatAux_append _ _ _ _ hb,
    pyFormatAux_digitField _ _ _ _ (by decide) hmode]
  have hg : (["a.txt", "b.txt"] : List String).get? (digitsToNat ['1'])
      = some "b.txt" := rfl
  rw [hg, Option.some_bind, Option.map_map]
  rfl

/-- C6: placeholder substitution happens exactly once, after all merging.
For a Document with paths `["a.txt", "b.txt"]` whose merged text splits into
brace-free segments around one `{0}` (which may sit in a setup fragment),
another `{0}` and one `{1}` (which may sit in the body), rendering replaces
each field occurrence exactly once with `a.txt` / `a.txt` / `b.txt` and
leaves the segments untouched. -/
theorem claim6_placeholder_substitution (wd : String) (t : VHSTape)
    (l1 l2 l3 l4 : List Char)
    (hf : t.files_and_directories = ["a.txt", "b.txt"])
    (hb1 : braceFreeB l1 = true) (hb2 : braceFreeB l2 = true)
    (hb3 : braceFreeB l3 = true) (hb4 : braceFreeB l4 = true)
    (hm : (mergedText wd t).data
      = l1 ++ (lbrace :: '0' :: rbrace :: (l2 ++ (lbrace :: '0' :: rbrace
          :: (l3 ++ (lbrace :: '1' :: rbrace :: l4)))))) :
    (renderVHSTape wd t).1
      = some (pyStrip (String.mk
          (l1 ++ ("a.txt".data ++ (l2 ++ ("a.txt".data
            ++ (l3 ++ ("b.txt".data ++ l4)))))))) := by
  have hstart : ∀ n, FmtMode.start ≠ FmtMode.auto n := by
    intro n h
    cases h
  have hmanual : ∀ n, FmtMode.manual ≠ FmtMode.auto n := by
    intro n h
    cases h
  show (pyFormat (mergedText wd t) t.files_and_directories).map pyStrip = _
  rw [hf]
  unfold pyFormat
  rw [hm, pyFormatAux_seg0 _ hstart _ _ hb1,
    pyFormatAux_seg0 _ hmanual _ _ hb2,
    pyFormatAux_seg1 _ hmanual _ _ hb3,
    pyFormatAux_literal _ _ _ hb4]
  rfl

/-- A concrete tape whose setup fragment references `\x7b0\x7d` and whose body
references `\x7b0\x7d` and `\x7b1\x7d` (C6 witness input). -/
def demoTapePlaceholders : VHSTape :=
  VHSTape.init "D" ["a.txt", "b.txt"]
    [{ setup := "Type \"touch \x7b0\x7d\" Enter", clean_up := "",
       required_programs := [] }]
    [] ["Type \"open \x7b0\x7d \x7b1\x7d\""] true none

/-- The merged text of `demoTapePlaceholders` up to its first `\x7b0\x7d`. -/
def demoSeg1 : String :=
  "Output videos/d.mp4\nRequire \"yazi\"\nRequire \"clear\"\nRequire \"rm\"\nSet FontSize 20\nSet FontFamily \"Maple Mono NF CN\"\nSet Theme \"BlulocoDark\"\nSet Padding 20\nSet Margin 0\nHide\nSet TypingSpeed 0.1ms\nType \"cd /w\" Enter\nType \"touch "

/-- The merged text of `demoTapePlaceholders` between its two `\x7b0\x7d`. -/
def demoSeg2 : String :=
  "\" Enter\nType \x27clear\x27 Enter\nShow\nSet TypingSpeed 150ms\n\nType \"yazi\" Enter\nSleep 1s\nType \"open "

/-- The merged text of `demoTapePlaceholders` between `\x7b0\x7d` and
`\x7b1\x7d`. -/
def demoSeg3 : String := " "

/-- The merged text of `demoTapePlaceholders` after `\x7b1\x7d`. -/
def demoSeg4 : String :=
  "\"\nHide\nSet TypingSpeed 0.1ms\n\nType \x27rm -rf a.txt b.txt\x27 Enter"

/-- C6 witness: the substitution theorem applied to a concrete tape whose
setup fragment and body share placeholder index 0. -/
theorem claim6_witness :
    (demoTapePlaceholders.files_and_directories = ["a.txt", "b.txt"]
      ∧ braceFreeB demoSeg1.data = true
      ∧ braceFreeB demoSeg2.data = true
      ∧ braceFreeB demoSeg3.data = true
      ∧ braceFreeB demoSeg4.data = true
      ∧ (mergedText "/w" demoTapePlaceholders).data
          = demoSeg1.data ++ (lbrace :: '0' :: rbrace :: (demoSeg2.data
              ++ (lbrace :: '0' :: rbrace :: (demoSeg3.data
              ++ (lbrace :: '1' :: rbrace :: demoSeg4.data))))))
    ∧ (renderVHSTape "/w" demoTapePlaceholders).1
        = some (pyStrip (String.mk
            (demoSeg1.data ++ ("a.txt".data ++ (demoSeg2.data
              ++ ("a.txt".data ++ (demoSeg3.data
              ++ ("b.txt".data ++ demoSeg4.data)))))))) :=
  ⟨⟨rfl, by decide, by decide, by decide, by decide, by decide⟩,
   claim6_placeholder_substitution "/w" demoTapePlaceholders
     demoSeg1.data demoSeg2.data demoSeg3.data demoSeg4.data
     rfl (by decide) (by decide) (by decide) (by decide) (by decide)⟩
